import Mathlib

/-!
Verification of the LipC signaling server against its specification.

Each subsystem named by a claim is embedded shallowly: pure Python
functions become Lean functions over explicit state; the MongoDB driver
is modelled as a document store; Python-level failures (TypeError,
AttributeError, ...) become explicit error values.  Timestamps are
rationals.
-/

namespace LipC

/-- Python runtime error values that the embedded code can raise. -/
inductive PyErr : Type
  | attributeError
  | typeError
  | indexError
  | keyError
  | expiredSignatureError
  | invalidTokenError
  deriving DecidableEq, Repr

/-! ## services/rate_limiter.py -/

namespace RateLimiter

/-- Length of the sliding window in seconds (WINDOW_SECONDS). -/
def WINDOW_SECONDS : ℚ := 5

/-- Max messages allowed within the window (MAX_MSG_PER_WIN). -/
def MAX_MSG_PER_WIN : ℕ := 60

/-- Ban duration in seconds once the limit is exceeded (BAN_SECONDS). -/
def BAN_SECONDS : ℚ := 30

/-- Per-key limiter state: the deque of hit timestamps (`_wins[key].hits`)
and the optional ban deadline (`_banned_until.get(key)`).  Keys are
independent in the source dictionaries, so one key is modelled. -/
structure State where
  hits : List ℚ
  bannedUntil : Option ℚ
  deriving DecidableEq, Repr

/-- Fresh per-key state: empty deque, no ban recorded. -/
def initState : State := ⟨[], none⟩

/-- The eviction loop: `while win and now - win[0] > WINDOW_SECONDS:
win.popleft()`. -/
def evict (now : ℚ) : List ℚ → List ℚ
  | [] => []
  | x :: xs => if WINDOW_SECONDS < now - x then evict now xs else x :: xs

/-- Python truthiness of the stored ban deadline (`if ban_deadline:`);
a deadline of 0.0 is falsy. -/
def banTruthy : Option ℚ → Bool
  | none => false
  | some v => v != 0

/-- The guard `if ban_deadline and now < ban_deadline`. -/
def banActive (b : Option ℚ) (now : ℚ) : Bool :=
  match b with
  | none => false
  | some v => v != 0 && now < v

/-- `RateLimiter.allow(key)` at clock value `now`: deny while banned,
drop an expired ban, append `now`, evict stale timestamps, and ban the
key when the deque exceeds MAX_MSG_PER_WIN. -/
def allow (s : State) (now : ℚ) : State × Bool :=
  if banActive s.bannedUntil now then (s, false)
  else
    let b1 : Option ℚ := if banTruthy s.bannedUntil then none else s.bannedUntil
    let win := evict now (s.hits ++ [now])
    if MAX_MSG_PER_WIN < win.length then
      (⟨[], some (now + BAN_SECONDS)⟩, false)
    else
      (⟨win, b1⟩, true)

/-- `RateLimiter.is_banned(key)`: `self._banned_until.get(key, 0) >
time.time()`. -/
def isBanned (s : State) (now : ℚ) : Bool :=
  decide (now < s.bannedUntil.getD 0)

/-- `RateLimiter.forget(key)`: drop the sliding window for the key (the
ban entry is kept, as in the source, which pops only `_wins`). -/
def forget (s : State) : State := ⟨[], s.bannedUntil⟩

/-- Run `allow` over a list of clock values, returning the final state
and the list of boolean results in call order. -/
def runAllow : State → List ℚ → State × List Bool
  | s, [] => (s, [])
  | s, t :: ts =>
    let p := allow s t
    let q := runAllow p.1 ts
    (q.1, p.2 :: q.2)

/-- Timestamps of the calls a run allowed (result `true`). -/
def allowedTimes (ts : List ℚ) : List ℚ :=
  ((ts.zip (runAllow initState ts).2).filter (fun p => p.2)).map (fun p => p.1)

/-- The window predicate of the claim: the call time lies in the closed
window of width WINDOW_SECONDS starting at `t0`. -/
def inWindow (t0 x : ℚ) : Bool := decide (t0 ≤ x ∧ x ≤ t0 + WINDOW_SECONDS)

/-- Number of allowed calls whose clock value lies in the closed window
of width WINDOW_SECONDS starting at `t0`. -/
def windowCount (ts : List ℚ) (t0 : ℚ) : ℕ :=
  ((allowedTimes ts).filter (inWindow t0)).length

/-- Recent-enough predicate used by eviction: the timestamp is at most
WINDOW_SECONDS old at clock value `now`. -/
def recentAt (now x : ℚ) : Bool := decide (now - x ≤ WINDOW_SECONDS)

lemma evict_sublist (now : ℚ) : ∀ l : List ℚ, (evict now l).Sublist l
  | [] => List.Sublist.refl []
  | x :: xs => by
    rw [evict]
    by_cases h : WINDOW_SECONDS < now - x
    · rw [if_pos h]
      exact (evict_sublist now xs).trans (List.sublist_cons_self x xs)
    · rw [if_neg h]

lemma evict_eq_filter (now : ℚ) :
    ∀ {l : List ℚ}, l.Pairwise (· ≤ ·) → evict now l = l.filter (recentAt now)
  | [], _ => rfl
  | x :: xs, h => by
    rw [evict, List.filter_cons]
    by_cases hx : WINDOW_SECONDS < now - x
    · have hpx : recentAt now x = false := by
        simp only [recentAt, decide_eq_false_iff_not, not_le]; linarith
      rw [if_pos hx, hpx, if_neg (by simp)]
      exact evict_eq_filter now h.tail
    · have hpx : recentAt now x = true := by
        simp only [recentAt, decide_eq_true_eq]; push_neg at hx; linarith
      have hrest : xs.filter (recentAt now) = xs := by
        refine List.filter_eq_self.mpr (fun y hy => ?_)
        have hxy : x ≤ y := (List.pairwise_cons.mp h).1 y hy
        simp only [recentAt, decide_eq_true_eq]
        push_neg at hx
        linarith
      rw [if_neg hx, hpx, if_pos rfl, hrest]

lemma banActive_mono {b : Option ℚ} {z y : ℚ} (hzy : z ≤ y)
    (h : banActive b z = false) : banActive b y = false := by
  cases b with
  | none => rfl
  | some v =>
    simp only [banActive, Bool.and_eq_false_iff, bne_eq_false_iff_eq,
      decide_eq_false_iff_not, not_lt] at h ⊢
    rcases h with h | h
    · exact Or.inl h
    · exact Or.inr (h.trans hzy)

lemma banActive_of_not_truthy {b : Option ℚ} (h : banTruthy b = false) (y : ℚ) :
    banActive b y = false := by
  cases b with
  | none => rfl
  | some v =>
    simp only [banTruthy, bne_eq_false_iff_eq] at h
    simp only [banActive, h, bne_self_eq_false, Bool.false_and]

/-- If a list is a sublist of `m` and all its elements satisfy `p`, then
it is a sublist of `m.filter p`. -/
lemma sublist_filter_of_forall {l m : List ℚ} {p : ℚ → Bool}
    (hs : l.Sublist m) (hall : ∀ x ∈ l, p x = true) : l.Sublist (m.filter p) := by
  have h1 : l.filter p = l := List.filter_eq_self.mpr hall
  have h2 := hs.filter p
  rwa [h1] at h2

/-- Inductive invariant carried along a run of `allow` for one key.
`tLast` bounds every clock value seen so far and `T` lists the allowed
call times so far. -/
structure Inv (tLast : ℚ) (T : List ℚ) (s : State) : Prop where
  sorted : s.hits.Pairwise (· ≤ ·)
  hits_le : ∀ x ∈ s.hits, x ≤ tLast
  t_nonneg : ∀ x ∈ T, 0 ≤ x
  t_le : ∀ x ∈ T, x ≤ tLast
  last_nonneg : 0 ≤ tLast
  main : ∀ y : ℚ, tLast ≤ y → banActive s.bannedUntil y = false →
    (T.filter (recentAt y)).Sublist s.hits
  winBound : ∀ t0 : ℚ, (T.filter (inWindow t0)).length ≤ MAX_MSG_PER_WIN

lemma inv_init : Inv 0 [] initState where
  sorted := List.Pairwise.nil
  hits_le := by intro x hx; cases hx
  t_nonneg := by intro x hx; cases hx
  t_le := by intro x hx; cases hx
  last_nonneg := le_refl 0
  main := by intro y _ _; exact List.Sublist.refl []
  winBound := by intro t0; simp [MAX_MSG_PER_WIN]

/-- One step of the run preserves the invariant. -/
lemma allow_step {tLast : ℚ} {T : List ℚ} {s : State} (inv : Inv tLast T s)
    {z : ℚ} (hz0 : 0 ≤ z) (hzl : tLast ≤ z) :
    Inv z (if (allow s z).2 then T ++ [z] else T) (allow s z).1 := by
  by_cases hban : banActive s.bannedUntil z = true
  · have hA : allow s z = (s, false) := by simp [allow, hban]
    rw [hA]
    show Inv z T s
    exact { sorted := inv.sorted
            hits_le := fun x hx => (inv.hits_le x hx).trans hzl
            t_nonneg := inv.t_nonneg
            t_le := fun x hx => (inv.t_le x hx).trans hzl
            last_nonneg := hz0
            main := fun y hy hb => inv.main y (hzl.trans hy) hb
            winBound := inv.winBound }
  · have hban' : banActive s.bannedUntil z = false := by
      revert hban; cases banActive s.bannedUntil z <;> simp
    by_cases hlen : MAX_MSG_PER_WIN < (evict z (s.hits ++ [z])).length
    · have hA : allow s z = (⟨[], some (z + BAN_SECONDS)⟩, false) := by
        rw [allow, if_neg (by simp [hban'])]
        simp only [if_pos hlen]
      rw [hA]
      show Inv z T ⟨[], some (z + BAN_SECONDS)⟩
      refine { sorted := List.Pairwise.nil
               hits_le := by intro x hx; cases hx
               t_nonneg := inv.t_nonneg
               t_le := fun x hx => (inv.t_le x hx).trans hzl
               last_nonneg := hz0
               main := ?_
               winBound := inv.winBound }
      intro y hy hb
      show (T.filter (recentAt y)).Sublist []
      have hzB : z + BAN_SECONDS ≠ 0 := by
        have h0 : (0:ℚ) < z + BAN_SECONDS := by
          simp only [BAN_SECONDS]; linarith
        exact ne_of_gt h0
      have hyB : z + BAN_SECONDS ≤ y := by
        simp only [banActive, Bool.and_eq_false_iff, bne_eq_false_iff_eq,
          decide_eq_false_iff_not, not_lt] at hb
        rcases hb with hb | hb
        · exact absurd hb hzB
        · exact hb
      have hnil : T.filter (recentAt y) = [] := by
        refine List.filter_eq_nil_iff.mpr (fun x hx => ?_)
        have hx1 : x ≤ z := (inv.t_le x hx).trans hzl
        have hB : BAN_SECONDS = (30:ℚ) := rfl
        simp only [recentAt, decide_eq_true_eq, not_le, WINDOW_SECONDS]
        rw [hB] at hyB hzB
        linarith
      rw [hnil]
    · have hkey : allow s z =
          (⟨evict z (s.hits ++ [z]),
            if banTruthy s.bannedUntil then none else s.bannedUntil⟩, true) := by
        rw [allow, if_neg (by simp [hban'])]
        simp only [if_neg hlen]
      have hsortApp : (s.hits ++ [z]).Pairwise (· ≤ ·) := by
        refine List.pairwise_append.mpr
          ⟨inv.sorted, List.pairwise_singleton _ _, ?_⟩
        intro x hx y hy
        have hyz : y = z := List.mem_singleton.mp hy
        rw [hyz]
        exact (inv.hits_le x hx).trans hzl
      have hzz : recentAt z z = true := by
        simp only [recentAt, decide_eq_true_eq, WINDOW_SECONDS]; linarith
      have hwinEq : evict z (s.hits ++ [z]) =
          s.hits.filter (recentAt z) ++ [z] := by
        rw [evict_eq_filter z hsortApp, List.filter_append,
          List.filter_singleton, hzz, cond_true]
      have hb1 : ∀ y : ℚ,
          banActive (if banTruthy s.bannedUntil then none else s.bannedUntil) y
            = false := by
        intro y
        by_cases ht : banTruthy s.bannedUntil = true
        · rw [if_pos ht]; rfl
        · have ht' : banTruthy s.bannedUntil = false := by
            revert ht; cases banTruthy s.bannedUntil <;> simp
          rw [if_neg (by simp [ht'])]
          exact banActive_of_not_truthy ht' y
      have hsub : ∀ y : ℚ, z ≤ y →
          ((T ++ [z]).filter (recentAt y)).Sublist (evict z (s.hits ++ [z])) := by
        intro y hy
        have hold : (T.filter (recentAt y)).Sublist s.hits :=
          inv.main y (hzl.trans hy) (banActive_mono hy hban')
        have hrecent : ∀ x ∈ T.filter (recentAt y), recentAt z x = true := by
          intro x hx
          have hxy : recentAt y x = true := (List.mem_filter.mp hx).2
          simp only [recentAt, decide_eq_true_eq] at hxy ⊢
          linarith
        have hleft : (T.filter (recentAt y)).Sublist (s.hits.filter (recentAt z)) :=
          sublist_filter_of_forall hold hrecent
        rw [hwinEq, List.filter_append, List.filter_singleton]
        by_cases hzin : recentAt y z = true
        · rw [hzin, cond_true]
          exact hleft.append (List.Sublist.refl [z])
        · have hf : recentAt y z = false := by
            revert hzin; cases recentAt y z <;> simp
          rw [hf, cond_false, List.append_nil]
          exact hleft.trans (List.sublist_append_left _ _)
      rw [hkey]
      show Inv z (T ++ [z])
        ⟨evict z (s.hits ++ [z]),
          if banTruthy s.bannedUntil then none else s.bannedUntil⟩
      refine { sorted := ?_
               hits_le := ?_
               t_nonneg := ?_
               t_le := ?_
               last_nonneg := hz0
               main := ?_
               winBound := ?_ }
      · exact hsortApp.sublist (evict_sublist z _)
      · intro x hx
        have hx1 : x ∈ s.hits ++ [z] := (evict_sublist z _).subset hx
        rcases List.mem_append.mp hx1 with hx2 | hx2
        · exact (inv.hits_le x hx2).trans hzl
        · exact le_of_eq (List.mem_singleton.mp hx2)
      · intro x hx
        rcases List.mem_append.mp hx with hx2 | hx2
        · exact inv.t_nonneg x hx2
        · rw [List.mem_singleton.mp hx2]; exact hz0
      · intro x hx
        rcases List.mem_append.mp hx with hx2 | hx2
        · exact (inv.t_le x hx2).trans hzl
        · exact le_of_eq (List.mem_singleton.mp hx2)
      · intro y hy _; exact hsub y hy
      · intro t0
        by_cases hzw : inWindow t0 z = true
        · have hwsub : (T.filter (inWindow t0)).Sublist (T.filter (recentAt z)) := by
            refine sublist_filter_of_forall (List.filter_sublist T) ?_
            intro x hx
            have hx1 : inWindow t0 x = true := (List.mem_filter.mp hx).2
            simp only [inWindow, decide_eq_true_eq] at hx1 hzw
            simp only [recentAt, decide_eq_true_eq]
            linarith [hx1.1, hx1.2, hzw.1, hzw.2]
          have hcert : ((T ++ [z]).filter (recentAt z)).length ≤ MAX_MSG_PER_WIN := by
            have h1 := (hsub z (le_refl z)).length_le
            omega
          have h2 : ((T ++ [z]).filter (recentAt z)).length =
              (T.filter (recentAt z)).length + 1 := by
            rw [List.filter_append, List.filter_singleton, hzz, cond_true]
            simp
          have h3 := hwsub.length_le
          rw [List.filter_append, List.filter_singleton, hzw, cond_true]
          simp only [List.length_append, List.length_singleton]
          omega
        · have hf : inWindow t0 z = false := by
            revert hzw; cases inWindow t0 z <;> simp
          rw [List.filter_append, List.filter_singleton, hf, cond_false,
            List.append_nil]
          exact inv.winBound t0

/-- Allowed call times of a run started from an arbitrary state. -/
def trueTimesFrom (s : State) (ts : List ℚ) : List ℚ :=
  ((ts.zip (runAllow s ts).2).filter (fun p => p.2)).map (fun p => p.1)

lemma allowedTimes_eq (ts : List ℚ) :
    allowedTimes ts = trueTimesFrom initState ts := rfl

lemma trueTimesFrom_cons (s : State) (z : ℚ) (ts : List ℚ) :
    trueTimesFrom s (z :: ts) =
      (if (allow s z).2 then [z] else []) ++ trueTimesFrom (allow s z).1 ts := by
  by_cases hb : (allow s z).2 = true
  · simp [trueTimesFrom, runAllow, hb]
  · have hb' : (allow s z).2 = false := by
      revert hb; cases (allow s z).2 <;> simp
    simp [trueTimesFrom, runAllow, hb']

lemma runAllow_winBound :
    ∀ (ts : List ℚ) {tLast : ℚ} {T : List ℚ} {s : State}, Inv tLast T s →
      ts.Sorted (· ≤ ·) → (∀ t ∈ ts, 0 ≤ t) → (∀ t ∈ ts, tLast ≤ t) →
      ∀ t0 : ℚ,
        ((T ++ trueTimesFrom s ts).filter (inWindow t0)).length ≤ MAX_MSG_PER_WIN
  | [], _, T, s, inv, _, _, _, t0 => by
    simpa [trueTimesFrom, runAllow] using inv.winBound t0
  | z :: ts, tLast, T, s, inv, hsort, h0, hge, t0 => by
    have hz0 : 0 ≤ z := h0 z (List.mem_cons_self z ts)
    have hzl : tLast ≤ z := hge z (List.mem_cons_self z ts)
    have inv2 := allow_step inv hz0 hzl
    have hsort2 : ts.Sorted (· ≤ ·) := (List.pairwise_cons.mp hsort).2
    have h02 : ∀ t ∈ ts, 0 ≤ t := fun t ht => h0 t (List.mem_cons_of_mem z ht)
    have hge2 : ∀ t ∈ ts, z ≤ t := (List.pairwise_cons.mp hsort).1
    rw [trueTimesFrom_cons]
    by_cases hb : (allow s z).2 = true
    · rw [if_pos hb, ← List.append_assoc]
      rw [if_pos hb] at inv2
      have hrec := runAllow_winBound ts inv2 hsort2 h02 hge2 t0
      simpa using hrec
    · have hb' : (allow s z).2 = false := by
        revert hb; cases (allow s z).2 <;> simp
      rw [hb', if_neg (by simp), List.nil_append]
      rw [hb', if_neg (by simp)] at inv2
      exact runAllow_winBound ts inv2 hsort2 h02 hge2 t0

/-- C9.  Sliding-window bound and ban behaviour of the rate limiter:
for every key and every nondecreasing sequence of nonnegative clock
values, at most MAX_MSG_PER_WIN calls of `allow` return true within any
window of WINDOW_SECONDS seconds; and whenever a request brings the
count of timestamps within the window above MAX_MSG_PER_WIN, `allow`
returns false, the window deque is cleared, and `is_banned` returns
true for the following BAN_SECONDS seconds. -/
theorem c9_rate_limiter_window_bound_and_ban :
    (∀ ts : List ℚ, ts.Sorted (· ≤ ·) → (∀ t ∈ ts, 0 ≤ t) →
      ∀ t0 : ℚ, windowCount ts t0 ≤ MAX_MSG_PER_WIN) ∧
    (∀ (s : State) (now : ℚ), banActive s.bannedUntil now = false →
      MAX_MSG_PER_WIN < (evict now (s.hits ++ [now])).length →
      (allow s now).2 = false ∧ (allow s now).1.hits = [] ∧
      ∀ t : ℚ, now ≤ t → t < now + BAN_SECONDS →
        isBanned (allow s now).1 t = true) := by
  constructor
  · intro ts hsort h0 t0
    have h := runAllow_winBound ts inv_init hsort h0 h0 t0
    simpa [windowCount, allowedTimes_eq] using h
  · intro s now hban hlen
    have hA : allow s now = (⟨[], some (now + BAN_SECONDS)⟩, false) := by
      rw [allow, if_neg (by simp [hban])]
      simp only [if_pos hlen]
    refine ⟨by rw [hA], by rw [hA], ?_⟩
    intro t ht1 ht2
    rw [hA]
    simp only [isBanned, Option.getD_some, decide_eq_true_eq]
    exact ht2

/-- Witness for C9: a concrete short run stays within the bound, and a
full deque triggers a ban observable ten seconds later. -/
theorem c9_rate_limiter_witness :
    windowCount [0, 1, 2] 0 ≤ MAX_MSG_PER_WIN ∧
    isBanned (allow ⟨List.replicate 61 0, none⟩ 0).1 10 = true := by
  have hlen : MAX_MSG_PER_WIN <
      (evict 0 ((⟨List.replicate 61 0, none⟩ : State).hits ++ [0])).length := by
    show MAX_MSG_PER_WIN < (evict 0 (List.replicate 61 (0:ℚ) ++ [0])).length
    have h1 : List.replicate 61 (0:ℚ) ++ [0] = 0 :: (List.replicate 60 0 ++ [0]) := by
      rw [List.replicate_succ, List.cons_append]
    have h2 : evict 0 (0 :: (List.replicate 60 (0:ℚ) ++ [0])) =
        0 :: (List.replicate 60 (0:ℚ) ++ [0]) := by
      rw [evict, if_neg]
      norm_num [WINDOW_SECONDS]
    rw [h1, h2]
    simp [MAX_MSG_PER_WIN]
  have ht2 : (10:ℚ) < 0 + BAN_SECONDS := by
    show (10:ℚ) < 0 + 30
    norm_num
  constructor
  · exact c9_rate_limiter_window_bound_and_ban.1 [0, 1, 2] (by decide) (by decide) 0
  · exact (c9_rate_limiter_window_bound_and_ban.2 ⟨List.replicate 61 0, none⟩ 0
      rfl hlen).2.2 10 (by decide) ht2

end RateLimiter

/-! ## handlers/connection.py -/

namespace Connection

/-- In-memory session entry of `services.state.clients`: the socket that
owns it and whether a server-side peer connection is attached. -/
structure Client where
  ws : ℕ
  pc : Bool
  deriving DecidableEq, Repr

/-- One frame as seen by the receive loop after the websocket delivers
it: either it fails to decrypt or parse, or it is a ping, or it is any
other parsed message. -/
inductive Frame : Type
  | undecodable
  | ping
  | msg (msgType : String)
  deriving DecidableEq, Repr

/-- Observable actions of the connection code. -/
inductive Effect : Type
  | sendInvalidFormat
  | sendPong
  | dispatch (msgType : String)
  | close (code : ℕ)
  | forgetIp (ip : String)
  | closePc (user : String)
  deriving DecidableEq, Repr

/-- Connection-loop state.  The `limiter` field is the per-remote-ip
state of the `services.rate_limiter` component; it is part of the model
state so that the specified rate-limiting behaviour can be stated, but
`handlers/connection.py` itself contains no reference to the rate
limiter. -/
structure ConnState where
  limiter : RateLimiter.State
  lastPing : ℚ
  deriving DecidableEq, Repr

/-- Body of the `async for raw_message in websocket` loop of
`handle_connection` (encrypted-communication phase): decode failures
get an error reply, pings update `last_ping` and get a pong, everything
else is dispatched by message type. -/
def receive_frame (s : ConnState) (now : ℚ) (f : Frame) :
    ConnState × List Effect :=
  match f with
  | .undecodable => (s, [.sendInvalidFormat])
  | .ping => (⟨s.limiter, now⟩, [.sendPong])
  | .msg t => (s, [.dispatch t])

/-- `handle_disconnection`: find the session whose socket matches,
close its peer connection if any, and delete the session. -/
def handle_disconnection (clients : List (String × Client)) (ws : ℕ) :
    List (String × Client) × List Effect :=
  match clients.find? (fun p => p.2.ws == ws) with
  | none => (clients, [])
  | some p =>
    (clients.filter (fun q => q.1 != p.1),
     if p.2.pc then [.closePc p.1] else [])

/-- The cleanup path run in the `finally` block of `handle_connection`:
it cancels the heartbeat and calls `handle_disconnection`; no function
of the rate limiter is invoked anywhere in the module, so the limiter
state is threaded through unchanged. -/
def connection_cleanup (lim : RateLimiter.State)
    (clients : List (String × Client)) (ws : ℕ) :
    RateLimiter.State × List (String × Client) × List Effect :=
  (lim, handle_disconnection clients ws)

/-- Claim C3 as stated: a frame that the rate limiter would disallow
leads to a close with code 4008, and cleanup forgets the ip exactly
when the ip is not currently banned. -/
def claimC3 : Prop :=
  (∀ (s : ConnState) (now : ℚ) (f : Frame),
    (RateLimiter.allow s.limiter now).2 = false →
    Effect.close 4008 ∈ (receive_frame s now f).2) ∧
  (∀ (lim : RateLimiter.State) (clients : List (String × Client))
      (ws : ℕ) (ip : String) (now : ℚ),
    (Effect.forgetIp ip ∈ (connection_cleanup lim clients ws).2.2 ↔
      RateLimiter.isBanned lim now = false))

/-- C3 counterexample: with the remote ip banned until time 100 the
limiter disallows the frame at time 0, yet the receive loop answers the
ping with a pong and never closes the socket with code 4008. -/
theorem c3_counterexample_no_rate_limit_close : ¬ claimC3 := by
  intro h
  have h1 := h.1 ⟨⟨[], some 100⟩, 0⟩ 0 Frame.ping (by decide)
  simp [receive_frame] at h1

/-- C3 amended: the receive loop of `handlers/connection.py` never
consults or changes the rate limiter and never closes the socket (with
code 4008 or any other code), and the disconnection cleanup never calls
`rate_limiter.forget`; the RateLimiter service exists but is not wired
into the connection lifecycle. -/
theorem c3_receive_loop_ignores_rate_limiter :
    (∀ (s : ConnState) (now : ℚ) (f : Frame),
      (receive_frame s now f).1.limiter = s.limiter ∧
      ∀ c : ℕ, Effect.close c ∉ (receive_frame s now f).2) ∧
    (∀ (lim : RateLimiter.State) (clients : List (String × Client))
        (ws : ℕ) (ip : String),
      (connection_cleanup lim clients ws).1 = lim ∧
      Effect.forgetIp ip ∉ (connection_cleanup lim clients ws).2.2) := by
  constructor
  · intro s now f
    cases f <;> simp [receive_frame]
  · intro lim clients ws ip
    refine ⟨rfl, ?_⟩
    show Effect.forgetIp ip ∉ (handle_disconnection clients ws).2
    unfold handle_disconnection
    rcases hf : clients.find? (fun p => p.2.ws == ws) with _ | p
    · rw [hf]
      simp
    · rw [hf]
      by_cases hpc : p.2.pc = true
      · simp [hpc]
      · simp [hpc]

end Connection

/-! ## WebRTCServer._strip_rtx (handlers/signaling_handler.py) -/

namespace Sdp

/-- Python `str.splitlines` restricted to the line boundaries that occur
in SDP text: CRLF, CR and LF (the exotic unicode boundaries of Python
are not modelled).  The accumulator holds the current line reversed. -/
def splitlinesAux : List Char → List Char → List (List Char)
  | [], acc => if acc.isEmpty then [] else [acc.reverse]
  | '\r' :: '\n' :: rest, acc => acc.reverse :: splitlinesAux rest []
  | '\r' :: rest, acc => acc.reverse :: splitlinesAux rest []
  | '\n' :: rest, acc => acc.reverse :: splitlinesAux rest []
  | c :: rest, acc => splitlinesAux rest (c :: acc)

/-- `sdp.splitlines()`. -/
def pySplitlines (s : String) : List String :=
  (splitlinesAux s.toList []).map String.mk

/-- Helper for `str.split()` with no arguments: split on whitespace
runs, discarding empty chunks. -/
def splitWsAux : List Char → List Char → List (List Char)
  | [], acc => if acc.isEmpty then [] else [acc.reverse]
  | c :: rest, acc =>
    if c.isWhitespace then
      if acc.isEmpty then splitWsAux rest []
      else acc.reverse :: splitWsAux rest []
    else splitWsAux rest (c :: acc)

/-- `line.split()`. -/
def pySplit (s : String) : List String :=
  (splitWsAux s.toList []).map String.mk

/-- Helper for `str.split(":")`. -/
def splitColonAux : List Char → List Char → List (List Char)
  | [], acc => [acc.reverse]
  | c :: rest, acc =>
    if c = ':' then acc.reverse :: splitColonAux rest []
    else splitColonAux rest (c :: acc)

/-- `tok.split(":")`. -/
def splitColon (s : String) : List String :=
  (splitColonAux s.toList []).map String.mk

/-- Contiguous-substring test on character lists. -/
def hasSub : List Char → List Char → Bool
  | p, [] => p.isEmpty
  | p, c :: rest => p.isPrefixOf (c :: rest) || hasSub p rest

/-- The Python containment test `p in s` on strings. -/
def substrB (p s : String) : Bool := hasSub p.toList s.toList

/-- `s.startswith(pfx)`. -/
def startsWithB (s pfx : String) : Bool := pfx.toList.isPrefixOf s.toList

/-- The test of the first loop of `_strip_rtx`:
`line.startswith("a=rtpmap") and "rtx/90000" in line`. -/
def isRtxRtpmapLine (line : String) : Bool :=
  startsWithB line "a=rtpmap" && substrB "rtx/90000" line

/-- `line.split()[0].split(":")[1]`, with Python IndexError made
explicit. -/
def rtpmapPt (line : String) : Except PyErr String :=
  match pySplit line with
  | [] => Except.error PyErr.indexError
  | tok :: _ =>
    match splitColon tok with
    | _ :: pt :: _ => Except.ok pt
    | _ => Except.error PyErr.indexError

/-- First loop of `_strip_rtx`: drop every RTX rtpmap line, collecting
its payload type, and keep every other line in order. -/
def firstPass : List String → Except PyErr (List String × List String)
  | [] => Except.ok ([], [])
  | line :: rest =>
    if isRtxRtpmapLine line then
      match rtpmapPt line with
      | Except.error e => Except.error e
      | Except.ok pt =>
        match firstPass rest with
        | Except.error e => Except.error e
        | Except.ok fr => Except.ok (fr.1, pt :: fr.2)
    else
      match firstPass rest with
      | Except.error e => Except.error e
      | Except.ok fr => Except.ok (line :: fr.1, fr.2)

/-- `line.startswith("a=fmtp:") or line.startswith("a=rtcp-fb:")`. -/
def isFmtpOrFbLine (line : String) : Bool :=
  startsWithB line "a=fmtp:" || startsWithB line "a=rtcp-fb:"

/-- Second loop of `_strip_rtx`: drop a kept line when
`any(line.startswith(prefix) and pt in line for prefix in
("a=fmtp:", "a=rtcp-fb:") for pt in rtx)`. -/
def secondPass (rtx : List String) (lines : List String) : List String :=
  lines.filter (fun line =>
    !((["a=fmtp:", "a=rtcp-fb:"] : List String).any (fun pfx =>
        rtx.any (fun pt => startsWithB line pfx && substrB pt line))))

/-- CRLF join with one trailing CRLF: `"\r\n".join(result) + "\r\n"`. -/
def joinCRLF (lines : List String) : String :=
  String.intercalate "\r\n" lines ++ "\r\n"

/-- `WebRTCServer._strip_rtx`. -/
def strip_rtx (sdp : String) : Except PyErr String :=
  match firstPass (pySplitlines sdp) with
  | Except.error e => Except.error e
  | Except.ok fr => Except.ok (joinCRLF (secondPass fr.2 fr.1))

/-- Payload types of the removed RTX rtpmap lines. -/
def rtxPtsOf (lines : List String) : List String :=
  (lines.filter isRtxRtpmapLine).filterMap (fun l => (rtpmapPt l).toOption)

/-- The payload type named by the claim for an `a=fmtp:<pt>` or
`a=rtcp-fb:<pt>` line: the part of the first whitespace token after the
first colon. -/
def claimPt (line : String) : String :=
  (splitColon ((pySplit line).headD "")).getD 1 ""

/-- The lines the claim says survive: every line except the RTX rtpmap
lines and except the fmtp/rtcp-fb lines whose payload type equals a
removed RTX payload type. -/
def claimKeeps (lines : List String) (l : String) : Bool :=
  !(isRtxRtpmapLine l) &&
  !(isFmtpOrFbLine l && (rtxPtsOf lines).contains (claimPt l))

/-- The lines the code actually keeps: the fmtp/rtcp-fb removal
triggers when a removed RTX payload type occurs as a substring anywhere
in the line. -/
def codeKeeps (lines : List String) (l : String) : Bool :=
  !(isRtxRtpmapLine l) &&
  !(isFmtpOrFbLine l && (rtxPtsOf lines).any (fun pt => substrB pt l))

/-- Claim C7 as stated: the cleaned SDP is the CRLF join (with one
trailing CRLF) of the original lines minus the RTX rtpmap lines and
minus exactly those fmtp/rtcp-fb lines whose payload type equals a
removed RTX payload type. -/
def claimC7 : Prop :=
  ∀ sdp out, strip_rtx sdp = Except.ok out →
    out = joinCRLF ((pySplitlines sdp).filter (claimKeeps (pySplitlines sdp)))

/-- C7 counterexample: with the RTX payload type 96, the line
`a=fmtp:961 apt=95` has payload type 961 yet is removed, because the
code tests substring containment of the payload type, not equality. -/
theorem c7_counterexample_substring_match : ¬ claimC7 := by
  intro h
  exact absurd
    (h "a=rtpmap:96 rtx/90000\r\na=fmtp:961 apt=95" "\r\n" rfl)
    (by decide)

lemma firstPass_ok : ∀ {lines : List String} {fr : List String × List String},
    firstPass lines = Except.ok fr →
    fr.1 = lines.filter (fun l => !isRtxRtpmapLine l) ∧ fr.2 = rtxPtsOf lines := by
  intro lines
  induction lines with
  | nil =>
    intro fr h
    rw [firstPass] at h
    injection h with h1
    subst h1
    exact ⟨rfl, rfl⟩
  | cons line rest ih =>
    intro fr h
    rw [firstPass] at h
    by_cases hr : isRtxRtpmapLine line = true
    · rw [if_pos hr] at h
      rcases hpt : rtpmapPt line with e | pt
      · rw [hpt] at h; exact absurd h (by simp)
      · rw [hpt] at h
        rcases hfp : firstPass rest with e | fr2
        · rw [hfp] at h; exact absurd h (by simp)
        · rw [hfp] at h
          injection h with h1
          subst h1
          obtain ⟨ih1, ih2⟩ := ih hfp
          constructor
          · rw [List.filter_cons]
            simp only [hr, Bool.not_true]
            rw [if_neg (by simp)]
            exact ih1
          · rw [rtxPtsOf, List.filter_cons]
            simp only [hr, if_true]
            rw [List.filterMap_cons, hpt]
            show pt :: fr2.2 = pt :: rtxPtsOf rest
            rw [ih2]
    · have hr2 : isRtxRtpmapLine line = false := by
        revert hr; cases isRtxRtpmapLine line <;> simp
      rw [hr2, if_neg (by simp)] at h
      rcases hfp : firstPass rest with e | fr2
      · rw [hfp] at h; exact absurd h (by simp)
      · rw [hfp] at h
        injection h with h1
        subst h1
        obtain ⟨ih1, ih2⟩ := ih hfp
        constructor
        · rw [List.filter_cons]
          simp only [hr2, Bool.not_false, if_true]
          show line :: fr2.1 = line :: rest.filter (fun l => !isRtxRtpmapLine l)
          rw [ih1]
        · rw [rtxPtsOf, List.filter_cons]
          simp only [hr2]
          rw [if_neg (by simp)]
          exact ih2

lemma any_and_const : ∀ (l : List String) (b : Bool) (q : String → Bool),
    (l.any fun x => b && q x) = (b && l.any q)
  | [], b, _ => by cases b <;> simp
  | x :: xs, b, q => by
    cases b <;> simp [List.any_cons, any_and_const xs]

lemma secondPass_eq (rtx : List String) (lines : List String) :
    secondPass rtx lines = lines.filter (fun l =>
      !(isFmtpOrFbLine l && rtx.any (fun pt => substrB pt l))) := by
  rw [secondPass]
  refine List.filter_congr (fun l _ => ?_)
  simp only [List.any_cons, List.any_nil, Bool.or_false]
  rw [any_and_const rtx (startsWithB l "a=fmtp:"),
    any_and_const rtx (startsWithB l "a=rtcp-fb:"), isFmtpOrFbLine]
  cases startsWithB l "a=fmtp:" <;> cases startsWithB l "a=rtcp-fb:" <;>
    cases rtx.any (fun pt => substrB pt l) <;> rfl

/-- C7 amended: on any SDP the code accepts, the cleaned SDP is the
CRLF join (with one trailing CRLF) of the original lines, in order,
minus the RTX rtpmap lines and minus exactly those fmtp/rtcp-fb lines
in which some removed RTX payload type occurs as a substring anywhere
in the line (substring containment, not payload-type equality). -/
theorem c7_strip_rtx_substring_semantics :
    ∀ sdp out, strip_rtx sdp = Except.ok out →
      out = joinCRLF ((pySplitlines sdp).filter (codeKeeps (pySplitlines sdp))) := by
  intro sdp out h
  rw [strip_rtx] at h
  rcases hfp : firstPass (pySplitlines sdp) with e | fr
  · rw [hfp] at h; exact absurd h (by simp)
  · rw [hfp] at h
    injection h with h1
    subst h1
    obtain ⟨h1, h2⟩ := firstPass_ok hfp
    rw [h1, h2, secondPass_eq, List.filter_filter]
    show joinCRLF ((pySplitlines sdp).filter _) = _
    congr 1
    refine List.filter_congr (fun l _ => ?_)
    rw [codeKeeps]
    cases isRtxRtpmapLine l <;>
      cases isFmtpOrFbLine l && (rtxPtsOf (pySplitlines sdp)).any
        (fun pt => substrB pt l) <;> rfl

/-- Witness for C7: the concrete SDP of the counterexample evaluates as
the amended claim predicts. -/
theorem c7_strip_rtx_witness :
    strip_rtx "a=rtpmap:96 rtx/90000\r\na=fmtp:961 apt=95" = Except.ok "\r\n" ∧
    "\r\n" = joinCRLF
      ((pySplitlines "a=rtpmap:96 rtx/90000\r\na=fmtp:961 apt=95").filter
        (codeKeeps (pySplitlines "a=rtpmap:96 rtx/90000\r\na=fmtp:961 apt=95"))) :=
  ⟨rfl, c7_strip_rtx_substring_semantics _ _ rfl⟩

end Sdp

/-! ## database/refresh_tokens.py and services/jwt_utils.py -/

namespace RefreshTokens

/-- One document of the `refresh_tokens` collection. -/
structure RTRecord where
  user_id : String
  jti : String
  token_hash : String
  expires_at : ℚ
  revoked : Bool
  created_at : ℚ
  replaced_by_jti : Option String
  revoked_at : Option ℚ
  deriving DecidableEq, Repr

instance : Inhabited RTRecord := ⟨⟨"", "", "", 0, false, 0, none, none⟩⟩

/-- The collection in insertion (natural) order. -/
abbrev DB := List RTRecord

/-- `save_refresh_token`: insert a fresh, unrevoked record. -/
def save_refresh_token (db : DB) (user jti token_hash : String)
    (expires_at now : ℚ) : DB :=
  db ++ [⟨user, jti, token_hash, expires_at, false, now, none, none⟩]

/-- The filter `{"user_id": user, "revoked": False}`. -/
def isLive (user : String) (r : RTRecord) : Bool :=
  r.user_id == user && !r.revoked

/-- `find_valid_token`: a record by jti and hash that is not revoked
and not past its expiry. -/
def find_valid_token (db : DB) (jti token_hash : String) (now : ℚ) :
    Option RTRecord :=
  db.find? (fun r =>
    r.jti == jti && r.token_hash == token_hash && !r.revoked &&
      decide (now < r.expires_at))

/-- Mongo `update_one` / `find_one_and_update`: replace the first
document matching `p` by its image under `f`, keeping order. -/
def updateFirst (p : RTRecord → Bool) (f : RTRecord → RTRecord) : DB → DB
  | [] => []
  | r :: rest => if p r then f r :: rest else r :: updateFirst p f rest

/-- `revoke_token(jti)`: mark the first record with this jti revoked.
The signature takes no reason argument. -/
def revoke_token (db : DB) (jti : String) (now : ℚ) : DB :=
  updateFirst (fun r => r.jti == jti)
    (fun r => { r with revoked := true, revoked_at := some now }) db

/-- Greatest `created_at` among the live records of `user`, if any:
the document that `sort=[("created_at", -1)]` ranks first. -/
def maxLiveCreated (db : DB) (user : String) : Option ℚ :=
  ((db.filter (isLive user)).map (fun r => r.created_at)).max?

/-- `revoke_previous_token`: find-and-update, sorted by `created_at`
descending, of the user's live records: the first (in natural order)
live record with the greatest `created_at` is marked revoked with the
`replaced_by_jti` tag; the jti of the old document is returned. -/
def revoke_previous_token (db : DB) (user replaced_by_jti : String)
    (now : ℚ) : DB × Option String :=
  match maxLiveCreated db user with
  | none => (db, none)
  | some m =>
    let p := fun r => isLive user r && r.created_at == m
    (updateFirst p
      (fun r =>
        { r with
          revoked := true
          revoked_at := some now
          replaced_by_jti := some replaced_by_jti }) db,
     (db.find? p).map (fun r => r.jti))

/-- `create_refresh_token` from services/jwt_utils.py: revoke the
previous live token of the user tagged with the fresh jti, sign the
payload (the external `jwt.encode` is the parameter `encode`), and save
the record with `token_hash` the SHA-256 hex digest of the new token
(the external `hashlib.sha256(...).hexdigest()` is the parameter
`hash`).  Returns the new collection and the token. -/
def create_refresh_token (hash : String → String)
    (encode : String → String → String) (db : DB) (user jti : String)
    (now exp : ℚ) : DB × String :=
  let db1 := (revoke_previous_token db user jti now).1
  let token := encode user jti
  (save_refresh_token db1 user jti (hash token) exp now, token)

/-- States of the `refresh_tokens` collection reachable through the
token service: the empty collection, an issue via
`create_refresh_token`, or a revocation via `revoke_token`. -/
inductive Reachable (hash : String → String)
    (encode : String → String → String) : DB → Prop
  | nil : Reachable hash encode []
  | issue (db : DB) (user jti : String) (now exp : ℚ) :
      Reachable hash encode db →
      Reachable hash encode
        (create_refresh_token hash encode db user jti now exp).1
  | revoke (db : DB) (jti : String) (now : ℚ) :
      Reachable hash encode db →
      Reachable hash encode (revoke_token db jti now)

/-- Number of unrevoked records of one user. -/
def liveCount (db : DB) (user : String) : ℕ :=
  (db.filter (isLive user)).length

lemma updateFirst_eq_of_find_none (p : RTRecord → Bool) (f : RTRecord → RTRecord) :
    ∀ db : DB, db.find? p = none → updateFirst p f db = db
  | [], _ => rfl
  | r :: rest, h => by
    have hal := List.find?_eq_none.mp h
    have hp : ¬ p r = true := hal r (List.mem_cons_self r rest)
    rw [updateFirst, if_neg hp]
    have hrest : rest.find? p = none :=
      List.find?_eq_none.mpr (fun x hx => hal x (List.mem_cons_of_mem r hx))
    rw [updateFirst_eq_of_find_none p f rest hrest]

lemma filter_length_updateFirst_some (p q : RTRecord → Bool)
    (f : RTRecord → RTRecord) :
    ∀ (db : DB) (r : RTRecord), db.find? p = some r →
      ((updateFirst p f db).filter q).length + (if q r then 1 else 0) =
        (db.filter q).length + (if q (f r) then 1 else 0)
  | [], r, h => by exact absurd h (by simp)
  | r0 :: rest, r, h => by
    by_cases hp : p r0 = true
    · rw [List.find?_cons_of_pos rest hp] at h
      injection h with h1
      subst h1
      rw [updateFirst, if_pos hp, List.filter_cons, List.filter_cons]
      by_cases hq1 : q (f r0) = true <;> by_cases hq2 : q r0 = true <;>
        simp [hq1, hq2] <;> omega
    · rw [List.find?_cons_of_neg rest hp] at h
      have ih := filter_length_updateFirst_some p q f rest r h
      rw [updateFirst, if_neg hp, List.filter_cons, List.filter_cons]
      by_cases hq0 : q r0 = true
      · simp only [hq0, if_true, List.length_cons]
        omega
      · rw [if_neg hq0, if_neg hq0]
        omega

/-- Revoking by jti can only reduce the number of live records. -/
lemma liveCount_revoke_token_le (db : DB) (jti : String) (now : ℚ)
    (u : String) : liveCount (revoke_token db jti now) u ≤ liveCount db u := by
  rw [liveCount, liveCount, revoke_token]
  rcases hf : db.find? (fun r => r.jti == jti) with _ | r1
  · rw [updateFirst_eq_of_find_none _ _ db hf]
  · have h := filter_length_updateFirst_some (fun r => r.jti == jti)
      (isLive u) (fun r => { r with revoked := true, revoked_at := some now })
      db r1 hf
    have hr : isLive u { r1 with revoked := true, revoked_at := some now } = false := by
      simp [isLive]
    rw [hr] at h
    by_cases hq : isLive u r1 = true <;> simp [hq] at h <;> omega

/-- After `revoke_previous_token`, a user that had at most one live
record has none. -/
lemma liveCount_revoke_previous_eq_zero (db : DB) (u jti : String) (now : ℚ)
    (h : liveCount db u ≤ 1) :
    liveCount ((revoke_previous_token db u jti now).1) u = 0 := by
  rw [revoke_previous_token]
  rcases hm : maxLiveCreated db u with _ | m
  · have h1 : (db.filter (isLive u)).map (fun r => r.created_at) = [] :=
      List.max?_eq_none_iff.mp hm
    have h2 : db.filter (isLive u) = [] := List.map_eq_nil_iff.mp h1
    show liveCount db u = 0
    rw [liveCount, h2]
    rfl
  · show liveCount (updateFirst _ _ db) u = 0
    have hmem : m ∈ (db.filter (isLive u)).map (fun r => r.created_at) :=
      List.max?_mem max_choice hm
    obtain ⟨r0, hr0mem, hr0c⟩ := List.mem_map.mp hmem
    have hr0live : isLive u r0 = true := List.of_mem_filter hr0mem
    have hr0in : r0 ∈ db := List.mem_of_mem_filter hr0mem
    have hp0 : (isLive u r0 && (r0.created_at == m)) = true := by
      rw [hr0live, hr0c]
      simp
    rcases hf : db.find? (fun r => isLive u r && r.created_at == m) with _ | r1
    · exact absurd hp0 (List.find?_eq_none.mp hf r0 hr0in)
    · have h3 := filter_length_updateFirst_some
        (fun r => isLive u r && r.created_at == m) (isLive u)
        (fun r =>
          { r with
            revoked := true
            revoked_at := some now
            replaced_by_jti := some jti }) db r1 hf
      have hlive1 : isLive u r1 = true := by
        have h4 := List.find?_some hf
        exact (Bool.and_eq_true_iff.mp h4).1
      have hdead : isLive u
          { r1 with
            revoked := true
            revoked_at := some now
            replaced_by_jti := some jti } = false := by
        simp [isLive]
      rw [hlive1, hdead] at h3
      rw [liveCount] at h ⊢
      simp at h3
      omega

/-- Appending the fresh record adds exactly one live record for its
user and none for the others. -/
lemma liveCount_save (db : DB) (user jti token_hash : String)
    (expires_at now : ℚ) (u : String) :
    liveCount (save_refresh_token db user jti token_hash expires_at now) u =
      liveCount db u + (if user == u then 1 else 0) := by
  rw [liveCount, liveCount, save_refresh_token, List.filter_append,
    List.length_append, List.filter_singleton]
  by_cases hu : (user == u) = true
  · have hl : isLive u ⟨user, jti, token_hash, expires_at, false, now, none, none⟩ = true := by
      simp only [isLive]
      simp at hu
      simp [hu]
    rw [hl, if_pos hu]
    rfl
  · have hl : isLive u ⟨user, jti, token_hash, expires_at, false, now, none, none⟩ = false := by
      simp only [isLive]
      simp at hu
      simp [hu]
    rw [hl, if_neg hu]
    rfl

/-- Revoke-previous never increases the live count of any user. -/
lemma liveCount_revoke_previous_le (db : DB) (u2 jti : String) (now : ℚ)
    (u : String) :
    liveCount ((revoke_previous_token db u2 jti now).1) u ≤ liveCount db u := by
  rw [revoke_previous_token]
  rcases hm : maxLiveCreated db u2 with _ | m
  · exact le_refl _
  · show liveCount (updateFirst _ _ db) u ≤ liveCount db u
    rcases hf : db.find? (fun r => isLive u2 r && r.created_at == m) with _ | r1
    · rw [liveCount, liveCount, updateFirst_eq_of_find_none _ _ db hf]
    · have h3 := filter_length_updateFirst_some
        (fun r => isLive u2 r && r.created_at == m) (isLive u)
        (fun r =>
          { r with
            revoked := true
            revoked_at := some now
            replaced_by_jti := some jti }) db r1 hf
      have hdead : isLive u
          { r1 with
            revoked := true
            revoked_at := some now
            replaced_by_jti := some jti } = false := by
        simp [isLive]
      rw [hdead] at h3
      rw [liveCount, liveCount]
      by_cases hq : isLive u r1 = true <;> simp [hq] at h3 <;> omega

/-- C4.  For every user at every state reachable through the token
service, at most one RefreshTokenRecord has `revoked = false`; and each
issue first revokes the user's most recently created live record
(tagging it with `replaced_by_jti` equal to the fresh jti), leaving the
user with zero live records, before appending the new unrevoked record
whose `token_hash` is the hash of the newly returned token. -/
theorem c4_at_most_one_live_refresh_token (hash : String → String)
    (encode : String → String → String) :
    (∀ db : DB, Reachable hash encode db → ∀ u : String, liveCount db u ≤ 1) ∧
    (∀ (db : DB) (u jti : String) (now exp : ℚ), Reachable hash encode db →
      liveCount ((revoke_previous_token db u jti now).1) u = 0 ∧
      (create_refresh_token hash encode db u jti now exp).1 =
        (revoke_previous_token db u jti now).1 ++
          [⟨u, jti, hash (create_refresh_token hash encode db u jti now exp).2,
            exp, false, now, none, none⟩]) := by
  have hmain : ∀ db : DB, Reachable hash encode db → ∀ u : String,
      liveCount db u ≤ 1 := by
    intro db hreach
    induction hreach with
    | nil => intro u; simp [liveCount]
    | issue db user jti now exp _ ih =>
      intro u
      rw [create_refresh_token]
      show liveCount (save_refresh_token _ _ _ _ _ _) u ≤ 1
      rw [liveCount_save]
      by_cases hu : (user == u) = true
      · rw [if_pos hu]
        have h0 : liveCount ((revoke_previous_token db user jti now).1) u = 0 := by
          have := liveCount_revoke_previous_eq_zero db user jti now (ih user)
          have huu : user = u := by
            simpa using hu
          rw [huu] at this ⊢
          exact this
        omega
      · rw [if_neg hu]
        have := liveCount_revoke_previous_le db user jti now u
        have := ih u
        omega
    | revoke db jti now _ ih =>
      intro u
      have := liveCount_revoke_token_le db jti now u
      have := ih u
      omega
  refine ⟨hmain, ?_⟩
  intro db u jti now exp hreach
  refine ⟨liveCount_revoke_previous_eq_zero db u jti now (hmain db hreach u), ?_⟩
  rfl

/-- Witness for C4: after one issue on the empty collection the user
has exactly one live record, a second issue first clears it. -/
theorem c4_refresh_token_witness :
    liveCount (create_refresh_token (fun s => s) (fun u j => u ++ j) []
      "u1" "j1" 0 100).1 "u1" ≤ 1 ∧
    liveCount ((revoke_previous_token (create_refresh_token (fun s => s)
      (fun u j => u ++ j) [] "u1" "j1" 0 100).1 "u1" "j2" 1).1) "u1" = 0 := by
  constructor
  · exact (c4_at_most_one_live_refresh_token (fun s => s) (fun u j => u ++ j)).1
      _ (Reachable.issue [] "u1" "j1" 0 100 Reachable.nil) "u1"
  · exact ((c4_at_most_one_live_refresh_token (fun s => s) (fun u j => u ++ j)).2
      _ "u1" "j2" 1 200 (Reachable.issue [] "u1" "j1" 0 100 Reachable.nil)).1

end RefreshTokens

namespace JwtUtils

open RefreshTokens

/-- Outcome of `jwt.decode` on the presented refresh token (the RSA
signature check is the external `jwt` library): either the token
verifies with type refresh and carries `sub` and `jti`, or decoding
raises ExpiredSignatureError (the exp-ignoring re-decode still yields
the jti), or it raises InvalidTokenError (the unverified re-decode
yields a jti when the token is well-formed). -/
inductive RefreshVerdict : Type
  | valid (sub jti : String)
  | expired (jti : String)
  | invalid (jti : Option String)
  deriving DecidableEq, Repr

/-- The call `revoke_token(jti, reason=...)` made by
`refresh_access_token`: `database.refresh_tokens.revoke_token` accepts
only the positional `jti`, so the unexpected keyword argument raises
TypeError at the call site, before any coroutine is created or any
database access happens. -/
def revoke_token_call_with_reason (db : DB) (jti reason : String) :
    Except PyErr DB :=
  Except.error PyErr.typeError

/-- The `try .. except Exception: pass` wrapper around the revoke
attempt: a raised error leaves the collection as it was. -/
def swallow (db : DB) (attempt : Except PyErr DB) : DB :=
  match attempt with
  | Except.ok db2 => db2
  | Except.error _ => db

/-- `refresh_access_token`: on a valid refresh token whose record
passes `find_valid_token`, issue a new access token (the external
`jwt.encode` of the access payload is the parameter `encodeAccess`);
otherwise attempt to revoke the matching record with a reason tag and
re-raise.  Returns the resulting collection and the outcome. -/
def refresh_access_token (hash : String → String)
    (encodeAccess : String → String) (db : DB) (v : RefreshVerdict)
    (token : String) (now : ℚ) : DB × Except PyErr String :=
  match v with
  | RefreshVerdict.valid sub jti =>
    match find_valid_token db jti (hash token) now with
    | some _ => (db, Except.ok (encodeAccess sub))
    | none =>
      (swallow db (revoke_token_call_with_reason db jti "invalid"),
       Except.error PyErr.invalidTokenError)
  | RefreshVerdict.expired jti =>
    (swallow db (revoke_token_call_with_reason db jti "expired"),
     Except.error PyErr.expiredSignatureError)
  | RefreshVerdict.invalid jtiOpt =>
    (swallow db (revoke_token_call_with_reason db (jtiOpt.getD "unknown") "invalid"),
     Except.error PyErr.invalidTokenError)

/-- C5.  What `refresh_access_token` actually does on a failed
verification: the error is re-raised (ExpiredSignatureError and
InvalidTokenError map to the matching outcomes), but the refresh-token
collection is returned unchanged in every case, because the revoke
attempt `revoke_token(jti, reason=...)` raises TypeError (the function
takes no reason argument) and the surrounding `except Exception: pass`
swallows it: no record is ever marked revoked. -/
theorem c5_failed_refresh_reraises_but_never_revokes :
    ∀ (hash : String → String) (encodeAccess : String → String)
      (db : DB) (v : RefreshVerdict) (token : String) (now : ℚ),
      (refresh_access_token hash encodeAccess db v token now).1 = db ∧
      (∀ jti, v = RefreshVerdict.expired jti →
        (refresh_access_token hash encodeAccess db v token now).2 =
          Except.error PyErr.expiredSignatureError) ∧
      (∀ jtiOpt, v = RefreshVerdict.invalid jtiOpt →
        (refresh_access_token hash encodeAccess db v token now).2 =
          Except.error PyErr.invalidTokenError) := by
  intro hash encodeAccess db v token now
  refine ⟨?_, ?_, ?_⟩
  · cases v with
    | valid sub jti =>
      rw [refresh_access_token]
      rcases hfv : find_valid_token db jti (hash token) now with _ | r
      · rfl
      · rfl
    | expired jti => rfl
    | invalid jtiOpt => rfl
  · intro jti hv
    subst hv
    rfl
  · intro jtiOpt hv
    subst hv
    rfl

/-- Witness for C5: an expired token whose record (jti j1) is present
and unrevoked leaves the record unrevoked and re-raises. -/
theorem c5_refresh_witness :
    (refresh_access_token (fun s => s) (fun s => s)
      [⟨"u1", "j1", "h1", 100, false, 0, none, none⟩]
      (RefreshVerdict.expired "j1") "tok" 50).1 =
      [⟨"u1", "j1", "h1", 100, false, 0, none, none⟩] ∧
    (refresh_access_token (fun s => s) (fun s => s)
      [⟨"u1", "j1", "h1", 100, false, 0, none, none⟩]
      (RefreshVerdict.expired "j1") "tok" 50).2 =
      Except.error PyErr.expiredSignatureError := by
  constructor
  · exact (c5_failed_refresh_reraises_but_never_revokes (fun s => s) (fun s => s)
      [⟨"u1", "j1", "h1", 100, false, 0, none, none⟩]
      (RefreshVerdict.expired "j1") "tok" 50).1
  · exact (c5_failed_refresh_reraises_but_never_revokes (fun s => s) (fun s => s)
      [⟨"u1", "j1", "h1", 100, false, 0, none, none⟩]
      (RefreshVerdict.expired "j1") "tok" 50).2.1 "j1" rfl

end JwtUtils

/-! ## database/users.py and handlers/contacts_handler.py -/

namespace Users

/-- One document of the `users` collection. -/
structure UserDoc where
  _id : String
  username : String
  password_hash : String
  name : String
  contacts : List String
  deriving DecidableEq, Repr

/-- The collection in natural order. -/
abbrev UsersDB := List UserDoc

/-- `get_user_by_id`. -/
def get_user_by_id (db : UsersDB) (uid : String) : Option UserDoc :=
  db.find? (fun u => u._id == uid)

/-- `get_user_contacts`: empty when the user is missing or has a falsy
contact list, otherwise the full documents whose `_id` is in the
contact list, in collection order (`find {"_id": {"$in": ...}}`). -/
def get_user_contacts (db : UsersDB) (uid : String) : List UserDoc :=
  match get_user_by_id db uid with
  | none => []
  | some user =>
    if user.contacts.isEmpty then []
    else db.filter (fun c => user.contacts.contains c._id)

/-- The per-contact dict the handler builds:
`{"_id": ..., "username": ..., "name": ...}` as an association list, so
that the exact key set is part of the value. -/
def contactEntry (c : UserDoc) : List (String × String) :=
  [("_id", c._id), ("username", c.username), ("name", c.name)]

/-- `ContactsHandler.handle_get_contacts`: after the JWT gate (whose
outcome is the input `jwtOk`, with `jwtErrCode` the error code of the
failed verification), serialize each contact.  `get_user_contacts`
never returns None, so the FETCH_FAILED branch of the handler is
unreachable and not modelled. -/
def handle_get_contacts (db : UsersDB) (jwtOk : Bool) (jwtErrCode : String)
    (uid : String) : Except String (List (List (String × String))) :=
  if jwtOk = false then Except.error jwtErrCode
  else Except.ok ((get_user_contacts db uid).map contactEntry)

/-- Two user collections that agree on everything except possibly the
stored `password_hash` values. -/
def SamePublic : UsersDB → UsersDB → Prop :=
  List.Forall₂ (fun a b =>
    a._id = b._id ∧ a.username = b.username ∧ a.name = b.name ∧
      a.contacts = b.contacts)

lemma get_user_contacts_none {db : UsersDB} {uid : String}
    (h : get_user_by_id db uid = none) : get_user_contacts db uid = [] := by
  rw [get_user_contacts, h]

lemma get_user_contacts_some {db : UsersDB} {uid : String} {u : UserDoc}
    (h : get_user_by_id db uid = some u) :
    get_user_contacts db uid =
      if u.contacts.isEmpty then []
      else db.filter (fun c => u.contacts.contains c._id) := by
  rw [get_user_contacts, h]

lemma get_user_by_id_congr {db1 db2 : UsersDB} (h : SamePublic db1 db2)
    (uid : String) :
    (get_user_by_id db1 uid = none ∧ get_user_by_id db2 uid = none) ∨
    (∃ a b, get_user_by_id db1 uid = some a ∧ get_user_by_id db2 uid = some b ∧
      a._id = b._id ∧ a.username = b.username ∧ a.name = b.name ∧
      a.contacts = b.contacts) := by
  induction h with
  | nil => exact Or.inl ⟨rfl, rfl⟩
  | cons hab hrest ih =>
    rename_i a b l1 l2
    by_cases hid : (a._id == uid) = true
    · refine Or.inr ⟨a, b, ?_, ?_, hab.1, hab.2.1, hab.2.2.1, hab.2.2.2⟩
      · exact List.find?_cons_of_pos _ hid
      · have hid2 : (b._id == uid) = true := by
          rw [← hab.1]
          exact hid
        exact List.find?_cons_of_pos _ hid2
    · have hid2 : ¬ (b._id == uid) = true := by
        rw [← hab.1]
        exact hid
      have e1 : get_user_by_id (a :: l1) uid = get_user_by_id l1 uid := by
        show List.find? (fun u => u._id == uid) (a :: l1) =
          List.find? (fun u => u._id == uid) l1
        exact List.find?_cons_of_neg l1 hid
      have e2 : get_user_by_id (b :: l2) uid = get_user_by_id l2 uid := by
        show List.find? (fun u => u._id == uid) (b :: l2) =
          List.find? (fun u => u._id == uid) l2
        exact List.find?_cons_of_neg l2 hid2
      rw [e1, e2]
      exact ih

lemma filter_contact_congr {db1 db2 : UsersDB} (h : SamePublic db1 db2)
    (cl : List String) :
    (db1.filter (fun c => cl.contains c._id)).map contactEntry =
      (db2.filter (fun c => cl.contains c._id)).map contactEntry := by
  induction h with
  | nil => rfl
  | cons hab hrest ih =>
    rename_i a b l1 l2
    rw [List.filter_cons, List.filter_cons]
    have hid : (cl.contains a._id) = (cl.contains b._id) := by rw [hab.1]
    by_cases hin : (cl.contains a._id) = true
    · rw [if_pos hin, if_pos (hid ▸ hin), List.map_cons, List.map_cons]
      have he : contactEntry a = contactEntry b := by
        rw [contactEntry, contactEntry, hab.1, hab.2.1, hab.2.2.1]
      rw [he, ih]
    · rw [if_neg hin, if_neg (fun hc => hin (hid ▸ hc))]
      exact ih

/-- C8.  The get_contacts success reply lists, for each contact,
exactly the keys `_id`, `username` and `name`; and the reply is
independent of every stored `password_hash`: two collections equal up
to password hashes produce identical replies. -/
theorem c8_get_contacts_exact_fields_and_no_hash_leak :
    ∀ (db1 db2 : UsersDB) (jwtOk : Bool) (jwtErrCode uid : String),
      SamePublic db1 db2 →
      handle_get_contacts db1 jwtOk jwtErrCode uid =
        handle_get_contacts db2 jwtOk jwtErrCode uid ∧
      (∀ entries, handle_get_contacts db1 jwtOk jwtErrCode uid =
          Except.ok entries →
        ∀ e ∈ entries, e.map Prod.fst = ["_id", "username", "name"]) := by
  intro db1 db2 jwtOk jwtErrCode uid h
  constructor
  · rw [handle_get_contacts, handle_get_contacts]
    by_cases hj : jwtOk = false
    · rw [if_pos hj, if_pos hj]
    · rw [if_neg hj, if_neg hj]
      congr 1
      rcases get_user_by_id_congr h uid with ⟨h1, h2⟩ | ⟨a, b, h1, h2, hi, hu, hn, hc⟩
      · rw [get_user_contacts_none h1, get_user_contacts_none h2]
      · rw [get_user_contacts_some h1, get_user_contacts_some h2, hc]
        by_cases hemp : b.contacts.isEmpty = true
        · rw [if_pos hemp, if_pos hemp]
        · rw [if_neg hemp, if_neg hemp]
          exact filter_contact_congr h b.contacts
  · intro entries hok e he
    rw [handle_get_contacts] at hok
    by_cases hj : jwtOk = false
    · rw [if_pos hj] at hok
      exact absurd hok (by simp)
    · rw [if_neg hj] at hok
      injection hok with hok
      subst hok
      obtain ⟨c, _, hce⟩ := List.mem_map.mp he
      rw [← hce, contactEntry]
      rfl

/-- Witness for C8: two concrete collections differing only in the
stored password hashes produce the same reply, whose entry carries
exactly the three public keys. -/
theorem c8_get_contacts_witness :
    handle_get_contacts
      [⟨"a", "alice", "ph1", "Alice A", ["b"]⟩,
       ⟨"b", "bob", "ph2", "Bob B", []⟩] true "E" "a" =
    handle_get_contacts
      [⟨"a", "alice", "other1", "Alice A", ["b"]⟩,
       ⟨"b", "bob", "other2", "Bob B", []⟩] true "E" "a" ∧
    List.map Prod.fst [("_id", "b"), ("username", "bob"), ("name", "Bob B")] =
      ["_id", "username", "name"] := by
  have hsame : SamePublic
      [⟨"a", "alice", "ph1", "Alice A", ["b"]⟩,
       ⟨"b", "bob", "ph2", "Bob B", []⟩]
      [⟨"a", "alice", "other1", "Alice A", ["b"]⟩,
       ⟨"b", "bob", "other2", "Bob B", []⟩] :=
    List.Forall₂.cons ⟨rfl, rfl, rfl, rfl⟩
      (List.Forall₂.cons ⟨rfl, rfl, rfl, rfl⟩ List.Forall₂.nil)
  constructor
  · exact (c8_get_contacts_exact_fields_and_no_hash_leak _ _ true "E" "a" hsame).1
  · exact (c8_get_contacts_exact_fields_and_no_hash_leak _ _ true "E" "a" hsame).2
      [[("_id", "b"), ("username", "bob"), ("name", "Bob B")]] rfl
      [("_id", "b"), ("username", "bob"), ("name", "Bob B")]
      (List.mem_singleton.mpr rfl)

end Users

/-! ## handlers/auth_handler.py -/

namespace Auth

/-- Maximum username length (constants.py USERNAME_MAX_LENGTH). -/
def USERNAME_MAX_LENGTH : ℕ := 32

/-- Maximum password length (constants.py PASSWORD_MAX_LENGTH). -/
def PASSWORD_MAX_LENGTH : ℕ := 128

/-- Maximum length of each name part (constants.py NAME_PART_MAX_LENGTH). -/
def NAME_PART_MAX_LENGTH : ℕ := 30

/-- A Python value as far as the auth handlers distinguish them: a
string, or the coroutine object produced by calling an async function
without awaiting it. -/
inductive PyVal : Type
  | str (s : String)
  | coroutine (fn : String)
  deriving DecidableEq, Repr

/-- Python truthiness: empty strings are falsy; a coroutine object is
always truthy. -/
def truthy : PyVal → Bool
  | PyVal.str s => !s.isEmpty
  | PyVal.coroutine _ => true

/-- The value of `get_user_by_username(username)` as the handlers bind
it: `database.users.get_user_by_username` is `async def`, and both
handlers call it without `await`, so the bound value is the coroutine
object and the database query never runs. -/
def get_user_by_username_unawaited (username : String) : PyVal :=
  PyVal.coroutine "get_user_by_username"

/-- Subscripting (`user["password_hash"]`): a coroutine object is not
subscriptable and a string cannot be indexed by a string key; both
raise TypeError. -/
def subscript (v : PyVal) (key : String) : Except PyErr PyVal :=
  match v with
  | PyVal.coroutine _ => Except.error PyErr.typeError
  | PyVal.str _ => Except.error PyErr.typeError

/-- What a handler invocation produces: a structured error reply, or an
exception escaping to the dispatcher, or (never reached, see the
theorems) the tail of the function past the un-awaited lookup. -/
inductive AuthReply : Type
  | errorReply (code : String)
  | deadCode
  deriving DecidableEq, Repr

/-- `^[A-Za-z]+$`. -/
def isAlphaStr (s : String) : Bool :=
  !s.isEmpty && s.toList.all (fun c => c.isAlpha)

/-- The name check: exactly two whitespace-separated Latin-letter
parts, each at most NAME_PART_MAX_LENGTH long (`name.strip().split()`
equals `name.split()` because empty chunks are discarded). -/
def validName (name : String) : Bool :=
  match Sdp.pySplit name with
  | [p1, p2] =>
    isAlphaStr p1 && isAlphaStr p2 &&
      decide (p1.length ≤ NAME_PART_MAX_LENGTH) &&
      decide (p2.length ≤ NAME_PART_MAX_LENGTH)
  | _ => false

/-- `^[a-zA-Z0-9_]+$`. -/
def validUsername (u : String) : Bool :=
  !u.isEmpty && u.toList.all (fun c => c.isAlphanum || c = '_')

/-- `\w` character class. -/
def isWordChar (c : Char) : Bool := c.isAlphanum || c = '_'

/-- The complexity regex
`^(?=.*[a-z])(?=.*[A-Z])(?=.*\d)(?=.*\W).{8,}$`, with the lookaheads
modelled semantically: at least 8 characters containing a lower-case
letter, an upper-case letter, a digit and a non-word character. -/
def strongPassword (s : String) : Bool :=
  decide (8 ≤ s.length) && s.toList.any (fun c => c.isLower) &&
    s.toList.any (fun c => c.isUpper) && s.toList.any (fun c => c.isDigit) &&
    s.toList.any (fun c => !isWordChar c)

/-- `AuthHandler.handle_authentication`.  After the field and length
validations the handler binds the un-awaited coroutine, whose
truthiness skips the USER_NOT_FOUND branch, and then subscripts it,
which raises TypeError; the bcrypt check, token issuance and session
registration below that line are unreachable. -/
def handle_authentication (username password : String) :
    Except PyErr AuthReply :=
  if username.isEmpty || password.isEmpty then
    Except.ok (AuthReply.errorReply "AUTH_MISSING_CREDENTIALS")
  else if decide (USERNAME_MAX_LENGTH < username.length) ||
      decide (PASSWORD_MAX_LENGTH < password.length) then
    Except.ok (AuthReply.errorReply "CREDENTIALS_TOO_LONG")
  else
    let user := get_user_by_username_unawaited username
    if truthy user = false then
      Except.ok (AuthReply.errorReply "USER_NOT_FOUND")
    else
      match subscript user "password_hash" with
      | Except.error e => Except.error e
      | Except.ok _ => Except.ok AuthReply.deadCode

/-- `AuthHandler.handle_signup`.  After the validations the handler
tests `if get_user_by_username(username):` on the un-awaited coroutine,
which is always truthy, so every validated signup answers
USERNAME_EXISTS; the user creation, token issuance and session
registration below that line are unreachable. -/
def handle_signup (username password name : String) :
    Except PyErr AuthReply :=
  if username.isEmpty || password.isEmpty || name.isEmpty then
    Except.ok (AuthReply.errorReply "SIGNUP_MISSING_CREDENTIALS")
  else if decide (USERNAME_MAX_LENGTH < username.length) ||
      decide (PASSWORD_MAX_LENGTH < password.length) then
    Except.ok (AuthReply.errorReply "FIELDS_TOO_LONG")
  else if validName name = false then
    Except.ok (AuthReply.errorReply "INVALID_NAME_FORMAT")
  else if validUsername username = false then
    Except.ok (AuthReply.errorReply "INVALID_USERNAME")
  else if strongPassword password = false then
    Except.ok (AuthReply.errorReply "WEAK_PASSWORD")
  else if truthy (get_user_by_username_unawaited username) then
    Except.ok (AuthReply.errorReply "USERNAME_EXISTS")
  else
    Except.ok AuthReply.deadCode

/-- C2.  No authenticate or signup request ever reaches the success
path: the valid signup of spec scenario S2 answers USERNAME_EXISTS
(the un-awaited `get_user_by_username` coroutine is truthy), a valid
login raises TypeError at `user["password_hash"]` (subscripting the
un-awaited coroutine), and for all inputs both handlers produce either
a structured error reply or an escaping exception, never the success
payload with tokens and a registered session. -/
theorem c2_auth_success_path_unreachable :
    handle_signup "alice42" "Aa1!aaaa" "Alice Smith" =
      Except.ok (AuthReply.errorReply "USERNAME_EXISTS") ∧
    handle_authentication "alice42" "Aa1!aaaa" =
      Except.error PyErr.typeError ∧
    (∀ username password name : String, ∃ code : String,
      handle_signup username password name =
        Except.ok (AuthReply.errorReply code)) ∧
    (∀ username password : String,
      (∃ code : String, handle_authentication username password =
        Except.ok (AuthReply.errorReply code)) ∨
      handle_authentication username password =
        Except.error PyErr.typeError) := by
  refine ⟨rfl, rfl, ?_, ?_⟩
  · intro username password name
    rw [handle_signup]
    by_cases h1 : (username.isEmpty || password.isEmpty || name.isEmpty) = true
    · rw [if_pos h1]
      exact ⟨"SIGNUP_MISSING_CREDENTIALS", rfl⟩
    · rw [if_neg h1]
      by_cases h2 : (decide (USERNAME_MAX_LENGTH < username.length) ||
          decide (PASSWORD_MAX_LENGTH < password.length)) = true
      · rw [if_pos h2]
        exact ⟨"FIELDS_TOO_LONG", rfl⟩
      · rw [if_neg h2]
        by_cases h3 : (validName name = false)
        · rw [if_pos h3]
          exact ⟨"INVALID_NAME_FORMAT", rfl⟩
        · rw [if_neg h3]
          by_cases h4 : (validUsername username = false)
          · rw [if_pos h4]
            exact ⟨"INVALID_USERNAME", rfl⟩
          · rw [if_neg h4]
            by_cases h5 : (strongPassword password = false)
            · rw [if_pos h5]
              exact ⟨"WEAK_PASSWORD", rfl⟩
            · rw [if_neg h5, if_pos
                (show truthy (get_user_by_username_unawaited username) = true
                  from rfl)]
              exact ⟨"USERNAME_EXISTS", rfl⟩
  · intro username password
    rw [handle_authentication]
    by_cases h1 : (username.isEmpty || password.isEmpty) = true
    · rw [if_pos h1]
      exact Or.inl ⟨"AUTH_MISSING_CREDENTIALS", rfl⟩
    · rw [if_neg h1]
      by_cases h2 : (decide (USERNAME_MAX_LENGTH < username.length) ||
          decide (PASSWORD_MAX_LENGTH < password.length)) = true
      · rw [if_pos h2]
        exact Or.inl ⟨"CREDENTIALS_TOO_LONG", rfl⟩
      · rw [if_neg h2]
        exact Or.inr rfl

end Auth

/-! ## database/call_history.py and handlers/call_history_handler.py -/

namespace CallHistory

/-- One transcript line of a call document. -/
structure Transcript where
  t : ℚ
  speaker : String
  text : String
  source : String
  deriving DecidableEq, Repr

/-- One document of the `calls` collection.  `_id` is assigned by the
driver on insert. -/
structure CallDoc where
  _id : ℕ
  caller_id : String
  callee_id : String
  started_at : ℚ
  ended_at : Option ℚ
  duration_seconds : Option ℚ
  transcripts : List Transcript
  deriving DecidableEq, Repr

/-- The collection in natural order. -/
abbrev CallsDB := List CallDoc

/-- An un-awaited value returned by a method of the motor async driver
(`AsyncIOMotorCollection`): it only describes the operation; nothing
reaches the database until the value is awaited. -/
structure MotorFuture (α : Type) where
  pending : α
  deriving DecidableEq, Repr

/-- `calls.insert_one(doc)` without `await`: the insert never runs. -/
def motor_insert_one (doc : CallDoc) : MotorFuture CallDoc := ⟨doc⟩

/-- Reading `.inserted_id` off the un-awaited future/coroutine raises
AttributeError. -/
def future_inserted_id (f : MotorFuture CallDoc) : Except PyErr ℕ :=
  Except.error PyErr.attributeError

/-- `start_call(caller_id, callee_id)`: builds the document with
`ended_at = None` and `duration_seconds = None`, calls the async
driver's `insert_one` WITHOUT awaiting it, then reads
`result.inserted_id`, which raises AttributeError; the collection is
returned untouched. -/
def start_call (db : CallsDB) (caller callee : String) (now : ℚ) :
    CallsDB × Except PyErr ℕ :=
  let doc : CallDoc := ⟨0, caller, callee, now, none, none, []⟩
  let result := motor_insert_one doc
  (db, future_inserted_id result)

/-- The query cursor built by
`calls.find(query).sort("started_at", -1).limit(limit)`: the filtered
documents sorted by `started_at` descending, truncated to `limit`.
Building the cursor is synchronous in motor. -/
structure MotorCursor where
  docs : List CallDoc
  deriving DecidableEq, Repr

/-- Build the cursor for `get_call_history`. -/
def find_sorted_limited (db : CallsDB) (uid : String) (limit : ℕ) :
    MotorCursor :=
  ⟨((db.filter (fun d => d.caller_id == uid || d.callee_id == uid)).mergeSort
      (fun a b => decide (b.started_at ≤ a.started_at))).take limit⟩

/-- `for doc in cursor:` over an AsyncIOMotorCursor: the cursor is not
synchronously iterable, so Python raises TypeError. -/
def sync_iter_cursor (c : MotorCursor) : Except PyErr (List CallDoc) :=
  Except.error PyErr.typeError

/-- `get_call_history(user_id, limit)`: builds the cursor and iterates
it with a plain for-loop, which raises TypeError before any document is
produced. -/
def get_call_history (db : CallsDB) (uid : String) (limit : ℕ) :
    Except PyErr (List CallDoc) :=
  sync_iter_cursor (find_sorted_limited db uid limit)

/-- `.isoformat() + "Z"` on a possibly-None datetime field: None has no
isoformat attribute. -/
def iso_or_raise : Option ℚ → Except PyErr String
  | none => Except.error PyErr.attributeError
  | some t => Except.ok (toString t ++ "Z")

/-- The JSON-ready form `_serialize_entry` produces. -/
structure SerializedEntry where
  _id : String
  caller_id : String
  callee_id : String
  started_at : String
  ended_at : String
  transcripts : List (String × String × String × String)
  deriving DecidableEq, Repr

/-- `_serialize_entry`: stringify ids, format `started_at` and
`ended_at` with `.isoformat() + "Z"` (AttributeError when the field is
still None), and format the transcript lines. -/
def _serialize_entry (e : CallDoc) : Except PyErr SerializedEntry := do
  let st ← iso_or_raise (some e.started_at)
  let en ← iso_or_raise e.ended_at
  Except.ok ⟨toString e._id, e.caller_id, e.callee_id, st, en,
    e.transcripts.map (fun l => (toString l.t ++ "Z", l.speaker, l.text, l.source))⟩

/-- Reply of the fetch_call_history handler. -/
inductive HistoryReply : Type
  | success (entries : List SerializedEntry)
  | errorReply (code : String)
  deriving DecidableEq, Repr

/-- `handle_fetch_call_history`: after the JWT gate, fetch and
serialize inside one try-block; any exception becomes a
CALL_HISTORY_ERROR reply. -/
def handle_fetch_call_history (db : CallsDB) (jwtOk : Bool)
    (jwtErrCode : String) (uid : String) (limit : ℕ) : HistoryReply :=
  if jwtOk = false then HistoryReply.errorReply jwtErrCode
  else
    match (do
      let entries ← get_call_history db uid limit
      entries.mapM _serialize_entry : Except PyErr (List SerializedEntry)) with
    | Except.ok s => HistoryReply.success s
    | Except.error _ => HistoryReply.errorReply "CALL_HISTORY_ERROR"

/-- Every document of the collection is finalized. -/
def allFinalized (db : CallsDB) : Bool := db.all (fun d => d.ended_at.isSome)

/-- C10.  What fetch_call_history actually does: every authenticated
fetch replies CALL_HISTORY_ERROR with no entries, even when every
record is finalized, because `get_call_history` iterates the async
motor cursor with a synchronous for-loop (TypeError); the serializer
does fail on an unfinalized record (`None.isoformat()`), and
`start_call` creates records with `ended_at = None`, but the handler
never gets that far. -/
theorem c10_fetch_history_always_errors :
    (∀ (db : CallsDB) (jwtErrCode uid : String) (limit : ℕ),
      handle_fetch_call_history db true jwtErrCode uid limit =
        HistoryReply.errorReply "CALL_HISTORY_ERROR") ∧
    (∀ e : CallDoc, e.ended_at = none →
      _serialize_entry e = Except.error PyErr.attributeError) := by
  constructor
  · intro db jwtErrCode uid limit
    rfl
  · intro e he
    rw [_serialize_entry]
    rw [he]
    rfl

/-- Witness for C10: a collection holding one finalized call still gets
CALL_HISTORY_ERROR, and serializing an unfinalized document raises. -/
theorem c10_fetch_history_witness :
    handle_fetch_call_history [⟨1, "A", "B", 0, some 10, some 10, []⟩]
      true "E" "A" 50 = HistoryReply.errorReply "CALL_HISTORY_ERROR" ∧
    _serialize_entry ⟨2, "A", "B", 0, none, none, []⟩ =
      Except.error PyErr.attributeError := by
  constructor
  · exact c10_fetch_history_always_errors.1
      [⟨1, "A", "B", 0, some 10, some 10, []⟩] "E" "A" 50
  · exact c10_fetch_history_always_errors.2 ⟨2, "A", "B", 0, none, none, []⟩ rfl

end CallHistory

/-! ## handlers/signaling_handler.py (SignalingHandler) -/

namespace Signaling

/-- One entry of `services.state.clients`. -/
structure ClientInfo where
  ws : ℕ
  aes_key : String
  deriving DecidableEq, Repr

/-- The session registry `clients` (dict user_id to session info). -/
abbrev Clients := List (String × ClientInfo)

/-- Membership test `user in clients`. -/
def containsUser (c : Clients) (u : String) : Bool :=
  (c.find? (fun q => q.1 == u)).isSome

/-- Lexicographic string comparison by code point, as Python `sorted`
compares strings. -/
def charListLe : List Char → List Char → Bool
  | [], _ => true
  | _ :: _, [] => false
  | a :: as, b :: bs =>
    if a.toNat < b.toNat then true
    else if b.toNat < a.toNat then false
    else charListLe as bs

/-- String comparison backing the sorted pair. -/
def strLe (a b : String) : Bool := charListLe a.toList b.toList

/-- `call_key`: `tuple(sorted([uid1, uid2]))`, an order-independent
key. -/
def call_key (a b : String) : String × String :=
  if strLe a b then (a, b) else (b, a)

/-- One value of `pending_calls`. -/
structure PendingEntry where
  caller : String
  callee : String
  call_id : Option ℕ
  ended : Bool
  deriving DecidableEq, Repr

/-- The `pending_calls` dict. -/
abbrev PendingCalls := List ((String × String) × PendingEntry)

/-- `pending_calls.get(key)`. -/
def lookupPending (p : PendingCalls) (k : String × String) :
    Option PendingEntry :=
  (p.find? (fun q => q.1 == k)).map (fun q => q.2)

/-- `pending_calls.setdefault(key, value)`. -/
def setdefaultPending (p : PendingCalls) (k : String × String)
    (v : PendingEntry) : PendingCalls :=
  match lookupPending p k with
  | some _ => p
  | none => p ++ [(k, v)]

/-- `info["call_id"] = cid` for the entry under `key`. -/
def setPendingCallId (p : PendingCalls) (k : String × String) (cid : ℕ) :
    PendingCalls :=
  p.map (fun q =>
    if q.1 == k then (q.1, { q.2 with call_id := some cid }) else q)

/-- Observable actions of the signaling handlers. -/
inductive SigEffect : Type
  | sendError (msgType code : String)
  | forward (target msgType : String)
  | serverPath (msgType : String)
  | dispatchError
  deriving DecidableEq, Repr

/-- The mutable state the signaling handlers touch: the session
registry, the pending-call dict, the `calls` collection, and a count of
how many times `start_call` has been invoked. -/
structure SigState where
  clients : Clients
  pending : PendingCalls
  calls : CallHistory.CallsDB
  startCallAttempts : ℕ
  deriving DecidableEq, Repr

/-- `SignalingHandler.handle_offer` for peer-to-peer targets: after the
JWT gate (outcome `jwtOk` and error code `jwtErrCode`), server targets
are delegated, unknown peers get NOT_CONNECTED, and otherwise a
PendingCall entry with `call_id = None` is recorded (setdefault, no
database insert) and the offer is forwarded to the target. -/
def handle_offer (s : SigState) (jwtOk : Bool) (jwtErrCode : String)
    (sender target : String) : SigState × List SigEffect :=
  if jwtOk = false then (s, [SigEffect.sendError "offer" jwtErrCode])
  else if target == "server" then (s, [SigEffect.serverPath "offer"])
  else if !containsUser s.clients sender || !containsUser s.clients target then
    (s, [SigEffect.sendError "offer" "NOT_CONNECTED"])
  else
    ({ s with pending := (setdefaultPending s.pending (call_key sender target)
        ⟨sender, target, none, false⟩) },
     [SigEffect.forward target "offer"])

/-- `SignalingHandler.handle_answer` for peer-to-peer targets: server
targets are delegated; a target without a session gets
TARGET_NOT_CONNECTED; when a PendingCall entry exists with
`call_id = None` the handler runs
`info["call_id"] = await start_call(info["caller"], info["callee"])`,
where `start_call` raises before anything is inserted or assigned, so
the exception escapes to `dispatch_message_encrypted` (a plain
"Dispatch error" reply) and nothing is forwarded; otherwise the answer
is forwarded to the target. -/
def handle_answer (s : SigState) (jwtOk : Bool) (jwtErrCode : String)
    (sender target : String) (now : ℚ) : SigState × List SigEffect :=
  if jwtOk = false then (s, [SigEffect.sendError "answer" jwtErrCode])
  else if target == "server" then (s, [SigEffect.serverPath "answer"])
  else if containsUser s.clients target = false then
    (s, [SigEffect.sendError "answer" "TARGET_NOT_CONNECTED"])
  else
    match lookupPending s.pending (call_key sender target) with
    | some info =>
      if info.call_id.isNone then
        match (CallHistory.start_call s.calls info.caller info.callee now).2 with
        | Except.error _ =>
          ({ s with
             calls := (CallHistory.start_call s.calls info.caller info.callee now).1
             startCallAttempts := s.startCallAttempts + 1 },
           [SigEffect.dispatchError])
        | Except.ok cid =>
          ({ s with
             calls := (CallHistory.start_call s.calls info.caller info.callee now).1
             startCallAttempts := s.startCallAttempts + 1
             pending := setPendingCallId s.pending (call_key sender target) cid },
           [SigEffect.forward target "answer"])
      else (s, [SigEffect.forward target "answer"])
    | none => (s, [SigEffect.forward target "answer"])

/-- Claim C6 as stated: an answer for a pair with no PendingCall entry
is rejected with a TARGET_NOT_CONNECTED error to the sender (and no
Call row is inserted). -/
def claimC6 : Prop :=
  ∀ (s : SigState) (jwtErrCode sender target : String) (now : ℚ),
    (target == "server") = false →
    lookupPending s.pending (call_key sender target) = none →
    SigEffect.sendError "answer" "TARGET_NOT_CONNECTED" ∈
      (handle_answer s true jwtErrCode sender target now).2 ∧
    (handle_answer s true jwtErrCode sender target now).1.calls = s.calls

/-- C6 counterexample: both peers connected, no pending entry: the
answer is forwarded to the target and no error reply is produced. -/
theorem c6_counterexample_answer_forwarded : ¬ claimC6 := by
  intro h
  have h1 := h ⟨[("A", ⟨0, "kA"⟩), ("B", ⟨1, "kB"⟩)], [], [], 0⟩
    "E" "A" "B" 0 (by decide) rfl
  exact absurd h1.1 (by decide)

/-- C6 amended: an answer for a pair with no PendingCall entry inserts
no Call row and leaves the state unchanged; it is forwarded to the
target when the target has a session, and TARGET_NOT_CONNECTED is
returned exactly when the target has none. -/
theorem c6_answer_without_offer_forwarded :
    ∀ (s : SigState) (jwtErrCode sender target : String) (now : ℚ),
      (target == "server") = false →
      lookupPending s.pending (call_key sender target) = none →
      (handle_answer s true jwtErrCode sender target now).1 = s ∧
      (containsUser s.clients target = true →
        (handle_answer s true jwtErrCode sender target now).2 =
          [SigEffect.forward target "answer"]) ∧
      (containsUser s.clients target = false →
        (handle_answer s true jwtErrCode sender target now).2 =
          [SigEffect.sendError "answer" "TARGET_NOT_CONNECTED"]) := by
  intro s jwtErrCode sender target now hserver hpend
  rw [handle_answer, if_neg (by simp), if_neg (by simp [hserver])]
  by_cases hc : containsUser s.clients target = false
  · rw [if_pos hc]
    refine ⟨rfl, ?_, fun _ => rfl⟩
    intro hc2
    rw [hc] at hc2
    exact absurd hc2 (by simp)
  · rw [if_neg hc, hpend]
    exact ⟨rfl, fun _ => rfl, fun hc2 => absurd hc2 hc⟩

/-- Witness for C6: the concrete two-client state of the
counterexample satisfies the amended description. -/
theorem c6_answer_witness :
    (handle_answer ⟨[("A", ⟨0, "kA"⟩), ("B", ⟨1, "kB"⟩)], [], [], 0⟩
      true "E" "A" "B" 0).2 = [SigEffect.forward "B" "answer"] :=
  (c6_answer_without_offer_forwarded
    ⟨[("A", ⟨0, "kA"⟩), ("B", ⟨1, "kB"⟩)], [], [], 0⟩
    "E" "A" "B" 0 (by decide) rfl).2.1 (by decide)

/-- The two-client starting state of the C1 trace: peers A and B have
live sessions, no pending calls, an empty calls collection. -/
def c1TraceS0 : SigState := ⟨[("A", ⟨0, "kA"⟩), ("B", ⟨1, "kB"⟩)], [], [], 0⟩

/-- First step of the C1 trace: offer from A to B. -/
def c1TraceOffer : SigState × List SigEffect :=
  handle_offer c1TraceS0 true "E" "A" "B"

/-- Second step: first answer from B to A. -/
def c1TraceAnswer1 : SigState × List SigEffect :=
  handle_answer c1TraceOffer.1 true "E" "B" "A" 5

/-- Third step: a second answer from B to A for the same pair. -/
def c1TraceAnswer2 : SigState × List SigEffect :=
  handle_answer c1TraceAnswer1.1 true "E" "B" "A" 6

/-- C1.  What the offer/answer pair actually does to the `calls`
collection: with peers A and B connected, an offer from A to B records
only the pending entry with `call_id = None`; the first answer invokes
`start_call`, which raises without inserting, so the dispatcher
reports "Dispatch error", no Call row exists and `call_id` is still
None; a second answer for the same pair invokes `start_call` again:
two invocations, zero rows, and no id ever stored in the entry. -/
theorem c1_no_call_row_ever_inserted :
    c1TraceOffer.1.pending = [(("A", "B"), ⟨"A", "B", none, false⟩)] ∧
    c1TraceOffer.1.calls = [] ∧
    c1TraceAnswer1.2 = [SigEffect.dispatchError] ∧
    c1TraceAnswer2.2 = [SigEffect.dispatchError] ∧
    c1TraceAnswer2.1.calls = [] ∧
    c1TraceAnswer2.1.startCallAttempts = 2 ∧
    lookupPending c1TraceAnswer2.1.pending (call_key "B" "A") =
      some ⟨"A", "B", none, false⟩ := by
  refine ⟨rfl, rfl, rfl, rfl, rfl, rfl, rfl⟩

end Signaling

end LipC
